import Mathlib

/-!
Verification of the ASR-Accuracy-Tool repository: a shallow embedding of the
refactored package (`asr_tool`: storage, audio, job manager, routes) and of the
legacy monolithic service (`app.py`), with theorems settling the frozen claims.

Conventions of the embedding:
* The persisted transcript table (a pandas DataFrame backed by a CSV file) is a
  `List Record`; a storage operation is a pure function from the current table
  to the new table, mirroring the load-mutate-save cycle that the source runs
  under its process-wide re-entrant lock.
* A raised Python exception is `Except.error`; in the error case the source
  never reaches `save_state`, so the table is unchanged.
* Timestamps (`time.time()`, `pd.Timestamp.now()`) are supplied as parameters.
* `uuid.uuid4()` draws are supplied as a `Nat → String` stream parameter.
-/

namespace ASRSpec

/-- One row of the refactored transcript table, column set
`id, filename, transcription, correct_transcripts, job_id, locked, locked_at`
(`asr_tool/services/storage.py`, `COLUMNS`). -/
structure Record where
  id : String
  filename : String
  transcription : String
  correct_transcripts : String
  job_id : String
  locked : Bool
  locked_at : Option String
deriving DecidableEq, Repr

/-- `storage.update_record`: pandas `df["id"] == record_id` builds a mask; the
lock check reads the first matching row (`.iloc[0]`); if it is locked a
`ValueError` is raised before any save.  Otherwise `correct_transcripts` is
assigned over the mask (a no-op when nothing matches) and the table is saved. -/
def update_record (tbl : List Record) (rid : String) (text : String) :
    Except String (List Record) :=
  match tbl.find? (fun r => r.id == rid) with
  | some r =>
    if r.locked then
      Except.error "Record is locked and cannot be edited"
    else
      Except.ok (tbl.map (fun r => if r.id == rid then { r with correct_transcripts := text } else r))
  | none =>
    Except.ok (tbl.map (fun r => if r.id == rid then { r with correct_transcripts := text } else r))

/-- `storage.lock_record`: sets `locked := True` and `locked_at` to the current
timestamp for every row matching the id. -/
def lock_record (tbl : List Record) (rid : String) (now : String) : List Record :=
  tbl.map (fun r => if r.id == rid then { r with locked := true, locked_at := some now } else r)

/-- `storage.unlock_record`: sets `locked := False` and `locked_at := None`
for every row matching the id. -/
def unlock_record (tbl : List Record) (rid : String) : List Record :=
  tbl.map (fun r => if r.id == rid then { r with locked := false, locked_at := none } else r)

/-- Outcome of `POST /api/records` (`routes.save_record`): a `ValueError` from
`storage.update_record` is surfaced as HTTP 403, anything normal as
`\x7bsuccess: true\x7d`. -/
inductive SaveResult where
  | success
  | lockedError (msg : String)
deriving DecidableEq, Repr

/-- `routes.save_record`, reduced to the storage effect: on success the saved
table is the updated one; on the 403 path nothing was saved. -/
def save_record (tbl : List Record) (rid : String) (text : String) :
    SaveResult × List Record :=
  match update_record tbl rid text with
  | Except.ok tbl2 => (SaveResult.success, tbl2)
  | Except.error e => (SaveResult.lockedError e, tbl)

/-- Fixed csv export path, `EXPORT_DIR / "transcriptions_export.csv"`. -/
def csvExportPath : String := "data/exports/transcriptions_export.csv"

/-- Fixed xlsx export path, `EXPORT_DIR / "transcriptions_export.xlsx"`. -/
def xlsxExportPath : String := "data/exports/transcriptions_export.xlsx"

/-- `storage.export_records`: writes the full current table to the csv path
when `fmt == "csv"`, and otherwise (any other string, not just "xlsx") to the
xlsx path.  Returns the path written and the list of file writes performed. -/
def export_records (fmt : String) (tbl : List Record) :
    String × List (String × List Record) :=
  if fmt == "csv" then (csvExportPath, [(csvExportPath, tbl)])
  else (xlsxExportPath, [(xlsxExportPath, tbl)])

/-- Response of `POST /api/export` (`routes.export_records`). -/
inductive ExportResponse where
  | fileDownload (path : String)
  | badFormat
deriving DecidableEq, Repr

/-- `routes.export_records`: rejects with HTTP 400 any format other than
"csv"/"xlsx" without touching storage; otherwise delegates to
`storage.export_records` and serves the file.  Second component: the file
writes performed. -/
def export_endpoint (fmt : String) (tbl : List Record) :
    ExportResponse × List (String × List Record) :=
  if fmt = "csv" ∨ fmt = "xlsx" then
    let pw := export_records fmt tbl
    (ExportResponse.fileDownload pw.1, pw.2)
  else (ExportResponse.badFormat, [])

/-- A spreadsheet row, as the cells present in it (column name, value). -/
def ExcelRow : Type := List (String × String)

/-- The cell of a row under a column name, when present. -/
def getCell (row : ExcelRow) (col : String) : Option String :=
  (row.find? (fun c => c.1 == col)).map (fun c => c.2)

/-- `row[col]` for a required column (pandas guarantees presence for every row
of an existing column; the default is never reached on validated input). -/
def rowCell (row : ExcelRow) (col : String) : String :=
  (getCell row col).getD ""

/-- The spreadsheet read by `pd.read_excel`: its column set and its rows. -/
structure Sheet where
  cols : List String
  rows : List ExcelRow

/-- `pathlib.Path(a) / b`: joins with a separator, except that an absolute
second component replaces the first. -/
def pathJoin (a b : String) : String :=
  if b.startsWith "/" then b else a ++ "/" ++ b

/-- The record synthesized by `storage.import_manual` for one spreadsheet row:
fresh id, `filename` joined under the chunk folder, `transcription` copied,
`correct_transcripts` from the row when present else the transcription,
`job_id` the given job, unlocked. -/
def importRecord (chunkFolder jobId rid : String) (row : ExcelRow) : Record :=
  { id := rid
  , filename := pathJoin chunkFolder (rowCell row "filename")
  , transcription := rowCell row "transcription"
  , correct_transcripts := (getCell row "correct_transcripts").getD (rowCell row "transcription")
  , job_id := jobId
  , locked := false
  , locked_at := none }

/-- `storage.import_manual`: requires the `filename` and `transcription`
columns (raising `ValueError` before anything is appended otherwise), then
synthesizes one record per row — `idSupply i` is the `uuid.uuid4()` draw for
row `i` — and appends them all in one `bulk_import`.  Returns the created
records and the new table. -/
def import_manual (chunkFolder : String) (sheet : Sheet) (jobId : String)
    (idSupply : Nat → String) (tbl : List Record) :
    Except String (List Record × List Record) :=
  if "filename" ∈ sheet.cols ∧ "transcription" ∈ sheet.cols then
    let records := sheet.rows.enum.map (fun p => importRecord chunkFolder jobId (idSupply p.1) p.2)
    Except.ok (records, tbl ++ records)
  else Except.error "Excel must contain filename and transcription columns"

/-- The storage effect of a manual-import run: on the validation-error path
nothing is appended and the table is unchanged. -/
def import_manual_run (chunkFolder : String) (sheet : Sheet) (jobId : String)
    (idSupply : Nat → String) (tbl : List Record) :
    Option (List Record) × List Record :=
  match import_manual chunkFolder sheet jobId idSupply tbl with
  | Except.ok rt => (some rt.1, rt.2)
  | Except.error _ => (none, tbl)

/-! ## Audio Processing Service (`asr_tool/services/audio.py`) -/

/-- `AUDIO_EXTENSIONS` from `audio.py`. -/
def AUDIO_EXTENSIONS : List String :=
  [".mp3", ".wav", ".wma", ".mpeg", ".opus", ".flac", ".m4a"]

/-- `file.lower().endswith(AUDIO_EXTENSIONS)`: the name ends, case-insensitively,
with one of the supported extensions (lowercasing character-wise; the
extensions are ASCII, where Python's `str.lower` and `Char.toLower` agree). -/
def isAudioName (name : String) : Bool :=
  AUDIO_EXTENSIONS.any (fun ext => ext.data.isSuffixOf (name.data.map Char.toLower))

mutual

/-- A directory tree: the file names directly in the directory, plus named
subdirectories. -/
inductive FSTree where
  | node (files : List String) (subdirs : FSForest)

/-- A list of (name, subtree) pairs of subdirectories. -/
inductive FSForest where
  | nil
  | cons (name : String) (tree : FSTree) (rest : FSForest)

end

mutual

/-- All files under a directory, recursively, as `os.walk` reaches them
(each file path prefixed by the directories leading to it). -/
def walkFiles : FSTree → List String
  | FSTree.node files subdirs => files ++ walkForest subdirs

/-- Files of a forest of subdirectories. -/
def walkForest : FSForest → List String
  | FSForest.nil => []
  | FSForest.cons name t rest =>
      (walkFiles t).map (fun f => name ++ "/" ++ f) ++ walkForest rest

end

/-- What the filesystem holds at the requested folder path. -/
inductive PathInput where
  | missing
  | plainFile
  | directory (tree : FSTree)

/-- The distinct failure kinds of `iter_audio_files`, one per raise site of
`audio.py` (the source distinguishes them by message text inside the single
`AudioProcessingError` class). -/
inductive AudioError where
  | notFound (msg : String)
  | invalidInput (msg : String)
deriving DecidableEq, Repr

/-- `audio.iter_audio_files`: raises the not-found kind when the folder does
not exist, the invalid-input kind when the path is not a directory, and
otherwise yields every file under the folder whose name matches
`isAudioName`, silently skipping the rest. -/
def iter_audio_files (p : PathInput) : Except AudioError (List String) :=
  match p with
  | PathInput.missing => Except.error (AudioError.notFound "Folder does not exist")
  | PathInput.plainFile => Except.error (AudioError.invalidInput "Path is not a directory")
  | PathInput.directory t => Except.ok ((walkFiles t).filter isAudioName)

/-! ## Job Manager (`asr_tool/services/job_manager.py`)

Python dicts (`self._jobs`, `self._active_jobs_by_type`) are embedded as
insertion-ordered association lists.  Every method of `JobManager` wraps its
body in `with self._lock:`; in the atomic embedding below each such body is
one pure step on `ManagerState` (the standard reading of lock-protected code).
The one place where this reading and the source diverge — `start_job` calls
`can_start_job` while already holding the same non-re-entrant
`threading.Lock` — is modelled separately and explicitly with `LockState`. -/

/-- First-match association lookup (`d.get(k)` / `d[k]`). -/
def getA {α β : Type} [DecidableEq α] : List (α × β) → α → Option β
  | [], _ => none
  | p :: rest, k => if p.1 = k then some p.2 else getA rest k

/-- `d[k] = v` on an insertion-ordered dict: replaces in place when the key is
present, appends otherwise. -/
def setA {α β : Type} [DecidableEq α] : List (α × β) → α → β → List (α × β)
  | [], k, v => [(k, v)]
  | p :: rest, k, v => if p.1 = k then (k, v) :: setA rest k v else p :: setA rest k v

/-- `del d[k]`. -/
def delA {α β : Type} [DecidableEq α] : List (α × β) → α → List (α × β)
  | [], _ => []
  | p :: rest, k => if p.1 = k then delA rest k else p :: delA rest k

/-- `JobStatus` enumeration. -/
inductive JobStatus where
  | pending
  | running
  | completed
  | failed
  | cancelled
deriving DecidableEq, Repr

/-- `JobType` enumeration. -/
inductive JobType where
  | transcribe
  | manual_import
deriving DecidableEq, Repr

/-- `JobInfo` dataclass.  `progress` is recomputed by `update_progress` as the
integer part of `processed / total * 100` (embedded as `Nat` division, which
agrees with the truncation the source performs); the free-form `result`
payload is abstracted to an optional string. -/
structure JobInfo where
  job_id : String
  job_type : JobType
  status : JobStatus
  progress : Nat
  total_items : Nat
  processed_items : Nat
  created_at : Nat
  started_at : Option Nat := none
  completed_at : Option Nat := none
  error : Option String := none
  result : Option String := none
deriving DecidableEq, Repr

/-- The mutation `update_progress` performs on the one job it targets:
set `processed_items`, optionally replace `total_items`, recompute
`progress` (0 when the total is 0). -/
def update_progress_job (j : JobInfo) (processed : Nat) (total : Option Nat) : JobInfo :=
  let j1 := { j with processed_items := processed }
  let j2 := match total with
    | some t => { j1 with total_items := t }
    | none => j1
  if j2.total_items > 0 then { j2 with progress := processed * 100 / j2.total_items }
  else { j2 with progress := 0 }

/-- The mutation `complete_job` performs on the one job it targets: status
`completed`, stamp `completed_at`, force `progress := 100`, store the result. -/
def complete_job_job (j : JobInfo) (result : Option String) (now : Nat) : JobInfo :=
  { j with status := JobStatus.completed, completed_at := some now,
           progress := 100, result := result }

/-- The mutation `fail_job` performs on the one job it targets. -/
def fail_job_job (j : JobInfo) (err : String) (now : Nat) : JobInfo :=
  { j with status := JobStatus.failed, completed_at := some now, error := some err }

/-- The `JobManager`'s mutable state: the `_jobs` registry and the
`_active_jobs_by_type` index. -/
structure ManagerState where
  jobs : List (String × JobInfo)
  active : List (JobType × String)
deriving DecidableEq, Repr

/-- `self._jobs.get(job_id)`. -/
def lookupJob (st : ManagerState) (jid : String) : Option JobInfo :=
  getA st.jobs jid

/-- `self._active_jobs_by_type.get(job_type)`. -/
def activeOf (st : ManagerState) (jt : JobType) : Option String :=
  getA st.active jt

/-- `JobManager.create_job`: insert a fresh `pending` job. -/
def create_job (st : ManagerState) (jid : String) (jt : JobType)
    (total : Nat) (now : Nat) : ManagerState × JobInfo :=
  let j : JobInfo :=
    { job_id := jid, job_type := jt, status := JobStatus.pending,
      progress := 0, total_items := total, processed_items := 0, created_at := now }
  ({ st with jobs := setA st.jobs jid j }, j)

/-- The body of `JobManager.can_start_job` (the logic inside its lock):
a job type can start unless the recorded active holder is a non-empty id that
is in the registry with status `running`; when it cannot, the holder's id is
returned.  (`active_job_id and active_job_id in self._jobs` — an empty string
is falsy in Python, hence the explicit emptiness test.) -/
def can_start_logic (st : ManagerState) (jt : JobType) : Bool × Option String :=
  match activeOf st jt with
  | some aid =>
    if aid = "" then (true, none)
    else
      match lookupJob st aid with
      | some j => if j.status = JobStatus.running then (false, some aid) else (true, none)
      | none => (true, none)
  | none => (true, none)

/-- `JobManager.can_start_job` as called from the routes layer (no lock held:
the body executes normally). -/
def can_start_job (st : ManagerState) (jt : JobType) : Bool × Option String :=
  can_start_logic st jt

/-- The check-and-set performed by `JobManager.start_job`, read atomically
(i.e. as if the inner `can_start_job` call could re-enter the lock): missing
job or a running job of the same type leaves the state unchanged and answers
false; otherwise the job transitions to `running`, `started_at` is stamped and
the job becomes the active holder for its type. -/
def start_job (st : ManagerState) (jid : String) (now : Nat) : ManagerState × Bool :=
  match lookupJob st jid with
  | none => (st, false)
  | some j =>
    if (can_start_logic st j.job_type).1 then
      let j2 := { j with status := JobStatus.running, started_at := some now }
      ({ st with jobs := setA st.jobs jid j2, active := setA st.active j.job_type jid }, true)
    else (st, false)

/-- `JobManager.update_progress` on the manager state. -/
def update_progress (st : ManagerState) (jid : String) (processed : Nat)
    (total : Option Nat) : ManagerState :=
  match lookupJob st jid with
  | none => st
  | some j => { st with jobs := setA st.jobs jid (update_progress_job j processed total) }

/-- `JobManager.complete_job` on the manager state: also releases the per-type
active slot when this job holds it. -/
def complete_job (st : ManagerState) (jid : String) (result : Option String)
    (now : Nat) : ManagerState :=
  match lookupJob st jid with
  | none => st
  | some j =>
    let active2 := if activeOf st j.job_type = some jid then delA st.active j.job_type
                   else st.active
    { st with jobs := setA st.jobs jid (complete_job_job j result now), active := active2 }

/-- `JobManager.fail_job` on the manager state. -/
def fail_job (st : ManagerState) (jid : String) (err : String) (now : Nat) : ManagerState :=
  match lookupJob st jid with
  | none => st
  | some j =>
    let active2 := if activeOf st j.job_type = some jid then delA st.active j.job_type
                   else st.active
    { st with jobs := setA st.jobs jid (fail_job_job j err now), active := active2 }

/-! ### The lock discipline of `start_job`, modelled explicitly (claim C5)

`JobManager.__init__` creates `self._lock = threading.Lock()` — a
non-re-entrant mutex.  A second `acquire` by the thread already holding it
blocks forever.  `Option` is the partiality: `none` means the call never
returns. -/

/-- The manager together with its `_lock`, as one thread observes it. -/
structure LockedMgr where
  lockHeld : Bool
  mgr : ManagerState
deriving DecidableEq, Repr

/-- `JobManager.can_start_job` with the lock explicit: `with self._lock:`
blocks forever (`none`) when the calling thread already holds the lock;
otherwise it runs `can_start_logic` and releases. -/
def can_start_jobL (s : LockedMgr) (jt : JobType) :
    Option ((Bool × Option String) × LockedMgr) :=
  if s.lockHeld then none
  else some (can_start_logic s.mgr jt, { s with lockHeld := false })

/-- `JobManager.start_job` with the lock explicit, exactly as written:
acquire `self._lock`, look the job up, then call `self.can_start_job` —
which tries to acquire the same non-re-entrant lock again. -/
def start_jobL (s : LockedMgr) (jid : String) (now : Nat) :
    Option (Bool × LockedMgr) :=
  if s.lockHeld then none
  else
    let s1 : LockedMgr := { lockHeld := true, mgr := s.mgr }
    match lookupJob s1.mgr jid with
    | none => some (false, { s1 with lockHeld := false })
    | some j =>
      match can_start_jobL s1 j.job_type with
      | none => none
      | some cs =>
        if cs.1.1 then
          let j2 := { j with status := JobStatus.running, started_at := some now }
          let m2 := { cs.2.mgr with jobs := setA cs.2.mgr.jobs jid j2,
                                    active := setA cs.2.mgr.active j.job_type jid }
          some (true, { lockHeld := false, mgr := m2 })
        else some (false, { cs.2 with lockHeld := false })

/-! ## Routes layer: job submission and the transcription task (`routes.py`) -/

/-- Response of `POST /api/jobs/transcribe` (`routes.start_transcription`),
after payload validation. -/
inductive TranscribeResponse where
  | conflict (active_job_id : Option String)
  | noAudioFiles
  | started (job_id : String) (total_files : Nat)
deriving DecidableEq, Repr

/-- `routes.start_transcription` after payload validation: consult
`can_start_job` for the transcribe type — a 409 conflict carrying the active
job's id schedules nothing — then list the audio files (an empty list is a
400), then `run_job_async`, whose synchronous part creates the `pending` job
and spawns the background thread.  The third component records whether a
background task was spawned. -/
def start_transcription (st : ManagerState) (files : List String) (jid : String)
    (now : Nat) : TranscribeResponse × ManagerState × Bool :=
  let cs := can_start_job st JobType.transcribe
  if cs.1 then
    if files.isEmpty then (TranscribeResponse.noAudioFiles, st, false)
    else
      let st2 := (create_job st jid JobType.transcribe files.length now).1
      (TranscribeResponse.started jid files.length, st2, true)
  else (TranscribeResponse.conflict cs.2, st, false)

/-- The sequence of `update_progress` calls that `routes.transcription_task`
issues for files `i, i+1, …`: `errs` records, per file, whether
`convert_to_wav`/`segment_audio` raised `AudioProcessingError` — in that case
the `continue` skips the end-of-iteration `update_progress(job_id, idx + 1,
len(files))` call. -/
def transcription_updates : Nat → List Bool → List Nat
  | _, [] => []
  | i, e :: rest =>
    if e then transcription_updates (i + 1) rest
    else (i + 1) :: transcription_updates (i + 1) rest

/-- The effect of one transcription job on its own `JobInfo`, as run by
`JobManager.run_job_async`'s wrapper once the job is `running`: the task
issues the progress updates of `transcription_updates` (each with
`total = errs.length`, the number of discovered files), returns normally even
when files erred, and the wrapper then calls `complete_job`. -/
def run_task_job (j : JobInfo) (errs : List Bool) (now : Nat) : JobInfo :=
  let j1 := (transcription_updates 0 errs).foldl
    (fun j p => update_progress_job j p (some errs.length)) j
  complete_job_job j1 (some "result") now

/-- The records appended by `routes.transcription_task` for one segment when
`transcribe_file` succeeds with text `text`. -/
def segmentRecordOk (rid seg text jobId : String) : Record :=
  { id := rid, filename := seg, transcription := text, correct_transcripts := text,
    job_id := jobId, locked := false, locked_at := none }

/-- The record appended by `routes.transcription_task` for one segment when
`transcribe_file` raises `ModelError` with message `msg`: the transcription is
the bracketed error marker and `correct_transcripts` is the empty string. -/
def segmentRecordErr (rid seg msg jobId : String) : Record :=
  { id := rid, filename := seg, transcription := "[Error: " ++ msg ++ "]",
    correct_transcripts := "", job_id := jobId, locked := false, locked_at := none }

/-! ## Legacy monolithic service (`app.py`) -/

/-- One row of the legacy spreadsheet-backed table. -/
structure LegacyRow where
  filename : String
  transcription : String
  correct_transcripts : String
deriving DecidableEq, Repr

/-- The legacy module's globals relevant to `/get-latest-data`: the in-memory
dataframe and the `last_sent_row` cursor. -/
structure LegacyState where
  df : List LegacyRow
  lastSentRow : Nat
deriving DecidableEq, Repr

/-- What `/get-latest-data` returns: the literal JSON string sentinel
`"All_Records_Processed"` or a JSON list of rows. -/
inductive LatestDataResponse where
  | sentinel
  | rows (rs : List LegacyRow)
deriving DecidableEq, Repr

/-- `app.get_latest_data`: reload the dataframe from the spreadsheet when the
file exists (`fileDf` is its parsed contents, `none` when the file is
missing), take the rows from `last_sent_row` on, and either answer the
sentinel leaving the cursor unchanged (cursor equal to the table length) or
answer the new rows and advance the cursor to the table length. -/
def get_latest_data (fileDf : Option (List LegacyRow)) (st : LegacyState) :
    LatestDataResponse × LegacyState :=
  let df := match fileDf with
    | some d => d
    | none => st.df
  let newRows := df.drop st.lastSentRow
  if st.lastSentRow = df.length then
    (LatestDataResponse.sentinel, { df := df, lastSentRow := st.lastSentRow })
  else
    (LatestDataResponse.rows newRows, { df := df, lastSentRow := df.length })

/-! ## Reachable manager states and the per-type exclusivity invariant -/

/-- Every id recorded in the active-holder index is non-empty (job ids are
`uuid.uuid4()` strings; an empty id would be falsy in the Python check
`active_job_id and active_job_id in self._jobs`). -/
def ActiveIdsNonempty (st : ManagerState) : Prop :=
  ∀ jt aid, activeOf st jt = some aid → aid ≠ ""

/-- Every running job in the registry is the recorded active holder for its
type. -/
def RunningIsActive (st : ManagerState) : Prop :=
  ∀ jid j, lookupJob st jid = some j → j.status = JobStatus.running →
    activeOf st j.job_type = some jid

/-- The job manager's invariant. -/
def MgrInv (st : ManagerState) : Prop := ActiveIdsNonempty st ∧ RunningIsActive st

/-- Manager states reachable in one process run: start from a loaded history
with no running job recorded (a fresh start, or any restart — within its own
runs no operation reaches `running` without first being observed; the active
index always starts empty because `_load_jobs` does not repopulate it), then
apply the manager's operations.  Jobs are created and started only by
`run_job_async` under fresh `uuid.uuid4()` ids, hence the non-empty-id
hypotheses. -/
inductive Reach : ManagerState → Prop where
  | init (jobs : List (String × JobInfo))
      (h : ∀ jid j, getA jobs jid = some j → ¬ j.status = JobStatus.running) :
      Reach { jobs := jobs, active := [] }
  | createStep (st : ManagerState) (jid : String) (jt : JobType) (total now : Nat)
      (hne : jid ≠ "") (h : Reach st) : Reach (create_job st jid jt total now).1
  | startStep (st : ManagerState) (jid : String) (now : Nat)
      (hne : jid ≠ "") (h : Reach st) : Reach (start_job st jid now).1
  | progressStep (st : ManagerState) (jid : String) (p : Nat) (t : Option Nat)
      (h : Reach st) : Reach (update_progress st jid p t)
  | completeStep (st : ManagerState) (jid : String) (r : Option String) (now : Nat)
      (h : Reach st) : Reach (complete_job st jid r now)
  | failStep (st : ManagerState) (jid : String) (e : String) (now : Nat)
      (h : Reach st) : Reach (fail_job st jid e now)

/-! ## Theorems -/

/-- C3: (counterexample) the claim "the `correct_transcripts` field at
creation equals the `transcription` field, including the
segment-inference-failure branch" is false at the record the failure branch
of `routes.transcription_task` appends: there `correct_transcripts` is the
empty string while `transcription` is the bracketed error marker. -/
theorem C3_counterexample :
    ¬ (segmentRecordErr "id1" "000.wav" "boom" "job1").correct_transcripts
      = (segmentRecordErr "id1" "000.wav" "boom" "job1").transcription := by
  decide

/-- C3: (amended) every transcription record created by the system initializes
`correct_transcripts` as follows: the per-segment success branch sets it equal
to `transcription`; the segment-inference-failure branch sets `transcription`
to the bracketed error marker but `correct_transcripts` to the empty string;
manual import sets it to the row's `correct_transcripts` when supplied, else
to the row's `transcription`. -/
theorem C3_correct_transcripts_init (rid seg text msg jobId cf : String) (row : ExcelRow) :
    (segmentRecordOk rid seg text jobId).correct_transcripts
      = (segmentRecordOk rid seg text jobId).transcription
    ∧ (segmentRecordErr rid seg msg jobId).transcription = "[Error: " ++ msg ++ "]"
    ∧ (segmentRecordErr rid seg msg jobId).correct_transcripts = ""
    ∧ (∀ v, getCell row "correct_transcripts" = some v →
        (importRecord cf jobId rid row).correct_transcripts = v)
    ∧ (getCell row "correct_transcripts" = none →
        (importRecord cf jobId rid row).correct_transcripts
          = (importRecord cf jobId rid row).transcription) := by
  refine ⟨rfl, rfl, rfl, ?_, ?_⟩
  · intro v hv
    simp [importRecord, hv]
  · intro hv
    simp [importRecord, hv]

/-- C3: witness for the amended claim at concrete rows, with and without a
supplied `correct_transcripts` cell. -/
theorem C3_witness :
    (importRecord "c" "j" "i" [("transcription", "hi")]).correct_transcripts
      = (importRecord "c" "j" "i" [("transcription", "hi")]).transcription
    ∧ (importRecord "c" "j" "i" [("transcription", "hi"), ("correct_transcripts", "fixed")]).correct_transcripts
      = "fixed" := by
  constructor
  · exact (C3_correct_transcripts_init "i" "s" "t" "m" "j" "c"
      [("transcription", "hi")]).2.2.2.2 (by decide)
  · exact (C3_correct_transcripts_init "i" "s" "t" "m" "j" "c"
      [("transcription", "hi"), ("correct_transcripts", "fixed")]).2.2.2.1 "fixed" (by decide)

/-- C4: the export operation accepts exactly "csv" and "xlsx": "csv" writes
the full current table to the fixed csv export path and returns it, "xlsx"
likewise to the fixed xlsx export path, and any other format value is
rejected with no export file produced. -/
theorem C4_export_formats (tbl : List Record) (fmt : String) :
    export_endpoint "csv" tbl
      = (ExportResponse.fileDownload csvExportPath, [(csvExportPath, tbl)])
    ∧ export_endpoint "xlsx" tbl
      = (ExportResponse.fileDownload xlsxExportPath, [(xlsxExportPath, tbl)])
    ∧ (fmt ≠ "csv" → fmt ≠ "xlsx" →
        export_endpoint fmt tbl = (ExportResponse.badFormat, [])) := by
  refine ⟨?_, ?_, ?_⟩
  · simp [export_endpoint, export_records]
  · simp [export_endpoint, export_records]
  · intro h1 h2
    simp [export_endpoint, h1, h2]

/-- C4: witness — a rejected format on a concrete table produces no file. -/
theorem C4_witness : export_endpoint "pdf" [] = (ExportResponse.badFormat, []) :=
  (C4_export_formats [] "pdf").2.2 (by decide) (by decide)

/-- C5: the code contradicts the claim (and its own docstring): for every job
id present in the registry, `start_job` — entered with the manager's
non-re-entrant `threading.Lock` free — acquires the lock and then calls
`can_start_job`, which blocks forever trying to acquire the same lock, so the
call never returns a boolean. -/
theorem C5_start_job_never_returns (s : LockedMgr) (jid : String) (now : Nat)
    (j : JobInfo) (hlock : s.lockHeld = false) (hj : lookupJob s.mgr jid = some j) :
    start_jobL s jid now = none := by
  simp [start_jobL, can_start_jobL, hlock, hj]

/-- C5: witness — the deadlock evaluated at a concrete registry holding one
pending job. -/
theorem C5_witness :
    start_jobL
      { lockHeld := false
      , mgr :=
        { jobs := [("j1",
            { job_id := "j1", job_type := JobType.transcribe,
              status := JobStatus.pending, progress := 0, total_items := 1,
              processed_items := 0, created_at := 0 })]
        , active := [] } } "j1" 5 = none :=
  C5_start_job_never_returns _ "j1" 5
    { job_id := "j1", job_type := JobType.transcribe, status := JobStatus.pending,
      progress := 0, total_items := 1, processed_items := 0, created_at := 0 }
    rfl (by decide)

/-- C9: legacy incremental-read semantics: with the cursor equal to the table
length the endpoint answers the sentinel (a distinguished value, not an empty
row list) and leaves the cursor unchanged; with the table grown past the
cursor it answers exactly the rows beyond the cursor and advances the cursor
to the table length; hence appending one row after catch-up makes the next
call return exactly that row. -/
theorem C9_legacy_cursor (fileDf : Option (List LegacyRow)) (st : LegacyState)
    (df : List LegacyRow) (row : LegacyRow) :
    (st.lastSentRow = (fileDf.getD st.df).length →
      get_latest_data fileDf st
        = (LatestDataResponse.sentinel, ⟨fileDf.getD st.df, st.lastSentRow⟩))
    ∧ (st.lastSentRow < (fileDf.getD st.df).length →
      get_latest_data fileDf st
        = (LatestDataResponse.rows ((fileDf.getD st.df).drop st.lastSentRow),
           ⟨fileDf.getD st.df, (fileDf.getD st.df).length⟩))
    ∧ get_latest_data (some (df ++ [row])) ⟨df, df.length⟩
        = (LatestDataResponse.rows [row], ⟨df ++ [row], df.length + 1⟩) := by
  refine ⟨?_, ?_, ?_⟩
  · intro h
    cases fileDf <;> simp_all [get_latest_data]
  · intro h
    cases fileDf <;> simp_all [get_latest_data] <;> omega
  · have hlen : ¬ df.length = (df ++ [row]).length := by simp
    simp [get_latest_data, hlen, List.drop_left]

/-- C9: witness — concrete caught-up call returning the sentinel, then a call
after one appended row returning exactly that row. -/
theorem C9_witness :
    get_latest_data none ⟨[⟨"a.wav", "t", "t"⟩], 1⟩
      = (LatestDataResponse.sentinel, ⟨[⟨"a.wav", "t", "t"⟩], 1⟩)
    ∧ get_latest_data (some [⟨"a.wav", "t", "t"⟩, ⟨"b.wav", "u", "u"⟩])
        ⟨[⟨"a.wav", "t", "t"⟩], 1⟩
      = (LatestDataResponse.rows [⟨"b.wav", "u", "u"⟩],
         ⟨[⟨"a.wav", "t", "t"⟩, ⟨"b.wav", "u", "u"⟩], 2⟩) := by
  constructor
  · exact (C9_legacy_cursor none ⟨[⟨"a.wav", "t", "t"⟩], 1⟩ [] ⟨"a.wav", "t", "t"⟩).1 (by decide)
  · exact (C9_legacy_cursor (some [⟨"a.wav", "t", "t"⟩, ⟨"b.wav", "u", "u"⟩])
      ⟨[⟨"a.wav", "t", "t"⟩], 1⟩ [] ⟨"a.wav", "t", "t"⟩).2.1 (by decide)

/-- C10: updating a record id that matches no row returns normally (the edit
endpoint reports success) and leaves every row of the table unchanged. -/
theorem C10_update_unknown_id (tbl : List Record) (rid text : String)
    (h : ∀ r ∈ tbl, r.id ≠ rid) :
    update_record tbl rid text = Except.ok tbl
    ∧ save_record tbl rid text = (SaveResult.success, tbl) := by
  have hfind : tbl.find? (fun r => r.id == rid) = none := by
    rw [List.find?_eq_none]
    intro r hr
    simpa using h r hr
  have hmap : tbl.map
      (fun r => if r.id = rid then { r with correct_transcripts := text } else r) = tbl := by
    conv_rhs => rw [← List.map_id tbl]
    apply List.map_congr_left
    intro r hr
    simp [h r hr]
  constructor
  · simp [update_record, hfind, hmap]
  · simp [save_record, update_record, hfind, hmap]

/-- C10: witness — a concrete table with a non-matching id is returned intact
with a success response. -/
theorem C10_witness :
    save_record [{ id := "a", filename := "f", transcription := "t",
                   correct_transcripts := "t", job_id := "j", locked := false,
                   locked_at := none }] "b" "new"
      = (SaveResult.success,
         [{ id := "a", filename := "f", transcription := "t",
            correct_transcripts := "t", job_id := "j", locked := false,
            locked_at := none }]) :=
  (C10_update_unknown_id _ "b" "new" (by decide)).2

/-- C1: for a record whose locked flag is true (the first — with unique ids,
the only — row matching the id), the update operation fails with the
permission-denied kind surfaced as 403 and nothing is saved; after unlocking
that record the same update succeeds, and the updated record's `locked_at` is
absent. -/
theorem C1_locked_update (tbl : List Record) (rid text : String) (r : Record)
    (hfind : tbl.find? (fun x => x.id == rid) = some r) (hlock : r.locked = true) :
    update_record tbl rid text = Except.error "Record is locked and cannot be edited"
    ∧ save_record tbl rid text
        = (SaveResult.lockedError "Record is locked and cannot be edited", tbl)
    ∧ ∃ tbl2, update_record (unlock_record tbl rid) rid text = Except.ok tbl2
        ∧ ∀ x ∈ tbl2, x.id = rid →
            x.correct_transcripts = text ∧ x.locked = false ∧ x.locked_at = none := by
  have hid : (r.id == rid) = true := by
    have h2 := List.find?_some (p := fun x : Record => x.id == rid) hfind
    simpa using h2
  have herr : update_record tbl rid text
      = Except.error "Record is locked and cannot be edited" := by
    simp [update_record, hfind, hlock]
  refine ⟨herr, ?_, ?_⟩
  · simp [save_record, herr]
  · have hid' : r.id = rid := by simpa using hid
    have hcomp : (fun x : Record => x.id == rid) ∘
        (fun x : Record => if x.id == rid then { x with locked := false, locked_at := none } else x)
        = fun x : Record => x.id == rid := by
      funext x
      by_cases hx : x.id = rid <;> simp [Function.comp, hx]
    have hfind2 : (unlock_record tbl rid).find? (fun x => x.id == rid)
        = some { r with locked := false, locked_at := none } := by
      rw [unlock_record, List.find?_map, hcomp, hfind]
      simp [hid']
    refine ⟨(unlock_record tbl rid).map
      (fun x => if x.id == rid then { x with correct_transcripts := text } else x), ?_, ?_⟩
    · simp [update_record, hfind2]
    · intro x hx hxid
      rw [unlock_record, List.map_map] at hx
      obtain ⟨y, hy, rfl⟩ := List.mem_map.mp hx
      by_cases hyid : (y.id == rid) = true <;> simp_all

/-- C1: witness — a concrete locked record rejects the edit, and accepts it
after unlock with `locked_at` cleared. -/
theorem C1_witness :
    update_record [{ id := "r1", filename := "f", transcription := "t",
                     correct_transcripts := "t", job_id := "j", locked := true,
                     locked_at := some "2024" }] "r1" "new"
      = Except.error "Record is locked and cannot be edited"
    ∧ ∃ tbl2,
        update_record (unlock_record
          [{ id := "r1", filename := "f", transcription := "t",
             correct_transcripts := "t", job_id := "j", locked := true,
             locked_at := some "2024" }] "r1") "r1" "new" = Except.ok tbl2
        ∧ ∀ x ∈ tbl2, x.id = "r1" →
            x.correct_transcripts = "new" ∧ x.locked = false ∧ x.locked_at = none := by
  have h := C1_locked_update
    [{ id := "r1", filename := "f", transcription := "t",
       correct_transcripts := "t", job_id := "j", locked := true,
       locked_at := some "2024" }] "r1" "new"
    { id := "r1", filename := "f", transcription := "t",
      correct_transcripts := "t", job_id := "j", locked := true,
      locked_at := some "2024" } (by decide) rfl
  exact ⟨h.1, h.2.2⟩

/-- C7: discovering audio files in an existing directory yields exactly the
files under it, recursively, whose name ends case-insensitively with one of
the seven supported extensions; a missing folder fails with the not-found
kind and a non-directory path with the invalid-input kind.  The last conjunct
is the extension-filtering example on `a.wav, b.txt, c.MP3, d.flac`. -/
theorem C7_discover_audio (t : FSTree) (f : String) :
    (∃ l, iter_audio_files (PathInput.directory t) = Except.ok l
        ∧ (f ∈ l ↔ f ∈ walkFiles t ∧ isAudioName f = true))
    ∧ iter_audio_files PathInput.missing
        = Except.error (AudioError.notFound "Folder does not exist")
    ∧ iter_audio_files PathInput.plainFile
        = Except.error (AudioError.invalidInput "Path is not a directory")
    ∧ iter_audio_files
        (PathInput.directory (FSTree.node ["a.wav", "b.txt", "c.MP3", "d.flac"] FSForest.nil))
        = Except.ok ["a.wav", "c.MP3", "d.flac"] := by
  refine ⟨⟨(walkFiles t).filter isAudioName, rfl, ?_⟩, rfl, rfl, ?_⟩
  · simp [List.mem_filter]
  · simp only [iter_audio_files, walkFiles, walkForest, List.append_nil]
    exact congrArg Except.ok (by decide)

/-- C8: manual import fails with the validation error exactly when the
spreadsheet lacks a `filename` or a `transcription` column, appending nothing
in that case; on success each synthesized record carries a fresh id (the
uuid4 draw of its row index — pairwise distinct as uuid draws are), the chunk
folder joined with the row's filename, the given job id, and `locked = false`,
and the batch is appended to the table in one bulk operation. -/
theorem C8_manual_import (cf jobId : String) (sheet : Sheet) (idS : Nat → String)
    (tbl : List Record) :
    (¬ ("filename" ∈ sheet.cols ∧ "transcription" ∈ sheet.cols) →
        import_manual cf sheet jobId idS tbl
          = Except.error "Excel must contain filename and transcription columns"
        ∧ import_manual_run cf sheet jobId idS tbl = (none, tbl))
    ∧ (("filename" ∈ sheet.cols ∧ "transcription" ∈ sheet.cols) →
        ∃ records,
          import_manual cf sheet jobId idS tbl = Except.ok (records, tbl ++ records)
          ∧ records.length = sheet.rows.length
          ∧ (∀ x ∈ records, x.job_id = jobId ∧ x.locked = false
              ∧ ∃ i row, sheet.rows.get? i = some row ∧ x.id = idS i
                  ∧ x.filename = pathJoin cf (rowCell row "filename"))
          ∧ (Function.Injective idS → (records.map (fun x => x.id)).Nodup)) := by
  constructor
  · intro h
    constructor
    · simp [import_manual, h]
    · simp [import_manual_run, import_manual, h]
  · intro h
    refine ⟨sheet.rows.enum.map (fun p => importRecord cf jobId (idS p.1) p.2),
      ?_, ?_, ?_, ?_⟩
    · simp [import_manual, h]
    · simp
    · intro x hx
      obtain ⟨p, hp, rfl⟩ := List.mem_map.mp hx
      refine ⟨rfl, rfl, p.1, p.2, ?_, rfl, rfl⟩
      simpa using List.mem_enum_iff_getElem?.mp hp
    · intro hinj
      have hmm : (sheet.rows.enum.map (fun p => importRecord cf jobId (idS p.1) p.2)).map
          (fun x => x.id) = (List.range sheet.rows.length).map idS := by
        rw [List.map_map, ← List.enum_map_fst, List.map_map]
        rfl
      rw [hmm]
      exact (List.nodup_range _).map hinj

/-- C8: witness — a sheet lacking the transcription column is rejected with
nothing appended; a well-formed two-row sheet yields records with the joined
filenames, the job id, unlocked, and distinct ids. -/
theorem C8_witness :
    import_manual_run "chunks" ⟨["filename"], [[("filename", "a.wav")]]⟩ "job9"
        (fun i => String.mk (List.replicate i 'u')) [] = (none, [])
    ∧ ∃ records,
        import_manual "chunks" ⟨["filename", "transcription"],
            [[("filename", "a.wav"), ("transcription", "hello")]]⟩ "job9"
            (fun i => String.mk (List.replicate i 'u')) []
          = Except.ok (records, [] ++ records)
        ∧ (∀ x ∈ records, x.job_id = "job9" ∧ x.locked = false
            ∧ ∃ i row, [[("filename", "a.wav"), ("transcription", "hello")]].get? i = some row
                ∧ x.id = (fun i => String.mk (List.replicate i 'u')) i
                ∧ x.filename = pathJoin "chunks" (rowCell row "filename"))
        ∧ (records.map (fun x => x.id)).Nodup := by
  have hinj : Function.Injective (fun i : Nat => String.mk (List.replicate i 'u')) := by
    intro a b hab
    have := congrArg (fun s : String => s.data.length) hab
    simpa using this
  constructor
  · exact ((C8_manual_import "chunks" "job9" ⟨["filename"], [[("filename", "a.wav")]]⟩
      (fun i => String.mk (List.replicate i 'u')) []).1 (by decide)).2
  · obtain ⟨records, h1, _, h3, h4⟩ :=
      (C8_manual_import "chunks" "job9" ⟨["filename", "transcription"],
        [[("filename", "a.wav"), ("transcription", "hello")]]⟩
        (fun i => String.mk (List.replicate i 'u')) []).2 (by decide)
    exact ⟨records, h1, h3, h4 hinj⟩

/-- The default of `getLastD` is irrelevant on a non-empty list. -/
theorem getLastD_irrel {α : Type} (l : List α) (a b : α) (h : l ≠ []) :
    l.getLastD a = l.getLastD b := by
  cases l with
  | nil => exact absurd rfl h
  | cons x xs => rw [List.getLastD_cons, List.getLastD_cons]

/-- A strictly increasing chain stays one under a smaller head. -/
theorem chain_lt_of_le {a b : Nat} {l : List Nat} (hab : a ≤ b)
    (h : List.Chain (· < ·) b l) : List.Chain (· < ·) a l := by
  cases h with
  | nil => exact List.Chain.nil
  | cons hr hc => exact List.Chain.cons (lt_of_le_of_lt hab hr) hc

/-- The processed counts passed by the task's progress updates are strictly
increasing above the starting index. -/
theorem transcription_updates_chain (errs : List Bool) (i : Nat) :
    List.Chain (· < ·) i (transcription_updates i errs) := by
  induction errs generalizing i with
  | nil => exact List.Chain.nil
  | cons e rest ih =>
    cases e with
    | true =>
      show List.Chain (· < ·) i (transcription_updates (i + 1) rest)
      exact chain_lt_of_le (Nat.le_succ i) (ih (i + 1))
    | false =>
      show List.Chain (· < ·) i ((i + 1) :: transcription_updates (i + 1) rest)
      exact List.Chain.cons (Nat.lt_succ_self i) (ih (i + 1))

/-- When the last file does not error, the update list is non-empty. -/
theorem transcription_updates_ne_nil :
    ∀ (errs : List Bool) (i : Nat), errs ≠ [] → errs.getLastD false = false →
      transcription_updates i errs ≠ [] := by
  intro errs
  induction errs with
  | nil => intro i hne _; exact absurd rfl hne
  | cons e rest ih =>
    intro i _ h
    rw [List.getLastD_cons] at h
    cases rest with
    | nil =>
      simp only [List.getLastD] at h
      subst h
      show ((i + 1) :: transcription_updates (i + 1) []) ≠ []
      simp
    | cons r rs =>
      have h' : (r :: rs).getLastD false = false := by
        rw [getLastD_irrel (r :: rs) false e (by simp)]
        exact h
      cases e with
      | true =>
        show transcription_updates (i + 1) (r :: rs) ≠ []
        exact ih (i + 1) (by simp) h'
      | false =>
        show ((i + 1) :: transcription_updates (i + 1) (r :: rs)) ≠ []
        simp

/-- The last processed count is bounded by the file count. -/
theorem transcription_updates_getLastD_le :
    ∀ (errs : List Bool) (i : Nat),
      (transcription_updates i errs).getLastD i ≤ i + errs.length := by
  intro errs
  induction errs with
  | nil => intro i; simp [transcription_updates]
  | cons e rest ih =>
    intro i
    cases e with
    | true =>
      show (transcription_updates (i + 1) rest).getLastD i ≤ i + (rest.length + 1)
      by_cases hn : transcription_updates (i + 1) rest = []
      · rw [hn]; simp
      · rw [getLastD_irrel _ i (i + 1) hn]
        have := ih (i + 1)
        omega
    | false =>
      show (((i + 1) :: transcription_updates (i + 1) rest)).getLastD i ≤ i + (rest.length + 1)
      rw [List.getLastD_cons]
      have := ih (i + 1)
      omega

/-- When the last file does not error, the final progress update carries
exactly the file count. -/
theorem transcription_updates_last_false :
    ∀ (errs : List Bool) (i : Nat), errs.getLastD false = false →
      (transcription_updates i errs).getLastD i = i + errs.length := by
  intro errs
  induction errs with
  | nil => intro i _; simp [transcription_updates]
  | cons e rest ih =>
    intro i h
    rw [List.getLastD_cons] at h
    cases rest with
    | nil =>
      simp only [List.getLastD] at h
      subst h
      show (((i + 1) :: transcription_updates (i + 1) []) ).getLastD i = i + 1
      rw [List.getLastD_cons]
      rfl
    | cons r rs =>
      have h' : (r :: rs).getLastD false = false := by
        rw [getLastD_irrel (r :: rs) false e (by simp)]
        exact h
      have hne := transcription_updates_ne_nil (r :: rs) (i + 1) (by simp) h'
      cases e with
      | true =>
        show (transcription_updates (i + 1) (r :: rs)).getLastD i = i + (rs.length + 1 + 1)
        rw [getLastD_irrel _ i (i + 1) hne, ih (i + 1) h']
        simp
        omega
      | false =>
        show (((i + 1) :: transcription_updates (i + 1) (r :: rs))).getLastD i
          = i + (rs.length + 1 + 1)
        rw [List.getLastD_cons, getLastD_irrel _ (i + 1) (i + 1) hne, ih (i + 1) h']
        simp
        omega

/-- When the last file errors, the final progress update falls short of the
file count. -/
theorem transcription_updates_last_true :
    ∀ (errs : List Bool) (i : Nat), errs.getLastD false = true →
      (transcription_updates i errs).getLastD i < i + errs.length := by
  intro errs
  induction errs with
  | nil => intro i h; simp at h
  | cons e rest ih =>
    intro i h
    rw [List.getLastD_cons] at h
    cases rest with
    | nil =>
      simp only [List.getLastD] at h
      subst h
      show (transcription_updates (i + 1) []).getLastD i < i + 1
      simp [transcription_updates]
    | cons r rs =>
      have h' : (r :: rs).getLastD false = true := by
        rw [getLastD_irrel (r :: rs) false e (by simp)]
        exact h
      cases e with
      | true =>
        show (transcription_updates (i + 1) (r :: rs)).getLastD i < i + (rs.length + 1 + 1)
        by_cases hn : transcription_updates (i + 1) (r :: rs) = []
        · rw [hn]; simp
        · rw [getLastD_irrel _ i (i + 1) hn]
          have := ih (i + 1) h'
          simp at this ⊢
          omega
      | false =>
        show (((i + 1) :: transcription_updates (i + 1) (r :: rs))).getLastD i
          < i + (rs.length + 1 + 1)
        rw [List.getLastD_cons]
        by_cases hn : transcription_updates (i + 1) (r :: rs) = []
        · rw [hn]; simp
        · rw [getLastD_irrel _ (i + 1) (i + 1) hn]
          have := ih (i + 1) h'
          simp at this ⊢
          omega

/-- Folding the source's `update_progress` over a list of processed counts
leaves `processed_items` at the last count (or untouched for no updates). -/
theorem foldl_update_progress_processed (l : List Nat) (j : JobInfo) (N : Nat) :
    (l.foldl (fun j p => update_progress_job j p (some N)) j).processed_items
      = l.getLastD j.processed_items := by
  induction l generalizing j with
  | nil => rfl
  | cons p rest ih =>
    rw [List.foldl_cons, ih, List.getLastD_cons]
    have hp : (update_progress_job j p (some N)).processed_items = p := by
      simp only [update_progress_job]
      split <;> rfl
    rw [hp]

/-- C2: (counterexample) the claim "when the job's status becomes completed,
processed_items equals N — including runs in which some file raises an
audio-processing error" is false for a one-file run whose file errors: the
`continue` skips the only progress update, yet the job completes with
progress 100 and `processed_items = 0 ≠ 1`. -/
theorem C2_counterexample :
    (run_task_job
      { job_id := "j", job_type := JobType.transcribe, status := JobStatus.running,
        progress := 0, total_items := 1, processed_items := 0, created_at := 0 }
      [true] 5).status = JobStatus.completed
    ∧ (run_task_job
      { job_id := "j", job_type := JobType.transcribe, status := JobStatus.running,
        progress := 0, total_items := 1, processed_items := 0, created_at := 0 }
      [true] 5).progress = 100
    ∧ ¬ (run_task_job
      { job_id := "j", job_type := JobType.transcribe, status := JobStatus.running,
        progress := 0, total_items := 1, processed_items := 0, created_at := 0 }
      [true] 5).processed_items = 1 := by
  refine ⟨rfl, rfl, ?_⟩
  decide

/-- C2: (amended) for a transcription job over N discovered files whose
per-file audio errors are `errs` (true = the file raised and was skipped,
its progress update included), `processed_items` is non-decreasing across the
sequence of progress updates, and when the job completes its progress is
forced to 100; `processed_items` then equals N exactly when the last file did
not raise an audio-processing error (in particular it can fall short of N
when a trailing file errs). -/
theorem C2_progress_monotone_completion (errs : List Bool) (j : JobInfo) (now : Nat)
    (h0 : j.processed_items = 0) :
    List.Chain (· ≤ ·) j.processed_items (transcription_updates 0 errs)
    ∧ (run_task_job j errs now).status = JobStatus.completed
    ∧ (run_task_job j errs now).progress = 100
    ∧ (run_task_job j errs now).processed_items ≤ errs.length
    ∧ ((run_task_job j errs now).processed_items = errs.length
        ↔ errs.getLastD false = false) := by
  have hproc : (run_task_job j errs now).processed_items
      = (transcription_updates 0 errs).getLastD 0 := by
    show ((transcription_updates 0 errs).foldl
      (fun j p => update_progress_job j p (some errs.length)) j).processed_items = _
    rw [foldl_update_progress_processed, h0]
  refine ⟨?_, rfl, rfl, ?_, ?_⟩
  · rw [h0]
    exact (transcription_updates_chain errs 0).imp (fun a b => le_of_lt)
  · rw [hproc]
    simpa using transcription_updates_getLastD_le errs 0
  · rw [hproc]
    constructor
    · intro hlen
      by_contra hb
      have htrue : errs.getLastD false = true := by
        cases hg : errs.getLastD false
        · exact absurd hg hb
        · rfl
      have hlt := transcription_updates_last_true errs 0 htrue
      omega
    · intro hfalse
      simpa using transcription_updates_last_false errs 0 hfalse

/-- C2: witness — a one-file run whose file succeeds ends completed with
`processed_items = 1 = N` and progress 100. -/
theorem C2_witness :
    (run_task_job
      { job_id := "j", job_type := JobType.transcribe, status := JobStatus.running,
        progress := 0, total_items := 1, processed_items := 0, created_at := 0 }
      [false] 7).status = JobStatus.completed
    ∧ (run_task_job
      { job_id := "j", job_type := JobType.transcribe, status := JobStatus.running,
        progress := 0, total_items := 1, processed_items := 0, created_at := 0 }
      [false] 7).processed_items = 1 := by
  have h := C2_progress_monotone_completion [false]
    { job_id := "j", job_type := JobType.transcribe, status := JobStatus.running,
      progress := 0, total_items := 1, processed_items := 0, created_at := 0 } 7 rfl
  exact ⟨h.2.1, h.2.2.2.2.mpr (by decide)⟩

/-- Lookup after insertion, same key. -/
theorem getA_setA_self {α β : Type} [DecidableEq α] (l : List (α × β)) (k : α) (v : β) :
    getA (setA l k v) k = some v := by
  induction l with
  | nil => simp [setA, getA]
  | cons p rest ih =>
    by_cases h : p.1 = k <;> simp [setA, getA, h, ih]

/-- Lookup after insertion, other key. -/
theorem getA_setA_ne {α β : Type} [DecidableEq α] (l : List (α × β)) (k k' : α) (v : β)
    (h : k' ≠ k) : getA (setA l k v) k' = getA l k' := by
  induction l with
  | nil => simp [setA, getA, Ne.symm h]
  | cons p rest ih =>
    by_cases hp : p.1 = k
    · simp [setA, hp, getA, Ne.symm h, ih]
    · by_cases hq : p.1 = k' <;> simp [setA, hp, getA, hq, ih, h]

/-- Lookup after deletion, same key. -/
theorem getA_delA_self {α β : Type} [DecidableEq α] (l : List (α × β)) (k : α) :
    getA (delA l k) k = none := by
  induction l with
  | nil => simp [delA, getA]
  | cons p rest ih =>
    by_cases h : p.1 = k <;> simp [delA, getA, h, ih]

/-- Lookup after deletion, other key. -/
theorem getA_delA_ne {α β : Type} [DecidableEq α] (l : List (α × β)) (k k' : α)
    (h : k' ≠ k) : getA (delA l k) k' = getA l k' := by
  induction l with
  | nil => simp [delA, getA]
  | cons p rest ih =>
    by_cases hp : p.1 = k
    · simp [delA, hp, getA, Ne.symm h, ih]
    · by_cases hq : p.1 = k' <;> simp [delA, hp, getA, hq, ih, h]

/-- `update_progress` does not change a job's status. -/
theorem update_progress_job_status (j : JobInfo) (p : Nat) (t : Option Nat) :
    (update_progress_job j p t).status = j.status := by
  simp only [update_progress_job]
  cases t <;> split <;> rfl

/-- `update_progress` does not change a job's type. -/
theorem update_progress_job_type (j : JobInfo) (p : Nat) (t : Option Nat) :
    (update_progress_job j p t).job_type = j.job_type := by
  simp only [update_progress_job]
  cases t <;> split <;> rfl

/-- `update_progress` on a registered job, explicitly. -/
theorem update_progress_eq_some (st : ManagerState) (jid : String) (p : Nat)
    (t : Option Nat) (j : JobInfo) (hj : lookupJob st jid = some j) :
    update_progress st jid p t
      = { st with jobs := setA st.jobs jid (update_progress_job j p t) } := by
  simp [update_progress, hj]

/-- `update_progress` on an unknown job does nothing. -/
theorem update_progress_eq_none (st : ManagerState) (jid : String) (p : Nat)
    (t : Option Nat) (hj : lookupJob st jid = none) :
    update_progress st jid p t = st := by
  simp [update_progress, hj]

/-- `start_job` on an unknown job does nothing. -/
theorem start_job_eq_none (st : ManagerState) (jid : String) (now : Nat)
    (hj : lookupJob st jid = none) : (start_job st jid now).1 = st := by
  simp [start_job, hj]

/-- `start_job` when the per-type re-check passes, explicitly. -/
theorem start_job_eq_won (st : ManagerState) (jid : String) (now : Nat) (j : JobInfo)
    (hj : lookupJob st jid = some j) (hcan : (can_start_logic st j.job_type).1 = true) :
    (start_job st jid now).1
      = { st with
          jobs := setA st.jobs jid { j with status := JobStatus.running, started_at := some now },
          active := setA st.active j.job_type jid } := by
  simp [start_job, hj, hcan]

/-- `start_job` when the per-type re-check fails does nothing. -/
theorem start_job_eq_lost (st : ManagerState) (jid : String) (now : Nat) (j : JobInfo)
    (hj : lookupJob st jid = some j) (hcan : ¬ (can_start_logic st j.job_type).1 = true) :
    (start_job st jid now).1 = st := by
  simp [start_job, hj, hcan]

/-- `complete_job` on a registered job, explicitly. -/
theorem complete_job_eq_some (st : ManagerState) (jid : String) (r : Option String)
    (now : Nat) (j : JobInfo) (hj : lookupJob st jid = some j) :
    complete_job st jid r now
      = { st with
          jobs := setA st.jobs jid (complete_job_job j r now),
          active := if activeOf st j.job_type = some jid then delA st.active j.job_type
                    else st.active } := by
  simp [complete_job, hj]

/-- `complete_job` on an unknown job does nothing. -/
theorem complete_job_eq_none (st : ManagerState) (jid : String) (r : Option String)
    (now : Nat) (hj : lookupJob st jid = none) : complete_job st jid r now = st := by
  simp [complete_job, hj]

/-- `fail_job` on a registered job, explicitly. -/
theorem fail_job_eq_some (st : ManagerState) (jid : String) (e : String)
    (now : Nat) (j : JobInfo) (hj : lookupJob st jid = some j) :
    fail_job st jid e now
      = { st with
          jobs := setA st.jobs jid (fail_job_job j e now),
          active := if activeOf st j.job_type = some jid then delA st.active j.job_type
                    else st.active } := by
  simp [fail_job, hj]

/-- `fail_job` on an unknown job does nothing. -/
theorem fail_job_eq_none (st : ManagerState) (jid : String) (e : String)
    (now : Nat) (hj : lookupJob st jid = none) : fail_job st jid e now = st := by
  simp [fail_job, hj]

/-- When the per-type check passes under the invariant, no running job of
that type exists. -/
theorem can_start_true_no_running (st : ManagerState) (jt : JobType)
    (hinv : MgrInv st) (hcan : (can_start_logic st jt).1 = true) :
    ∀ jid' j', lookupJob st jid' = some j' → j'.job_type = jt →
      ¬ j'.status = JobStatus.running := by
  intro jid' j' hj' hty hrun
  have hact : activeOf st jt = some jid' := hty ▸ hinv.2 jid' j' hj' hrun
  have hne : jid' ≠ "" := hinv.1 jt jid' hact
  simp [can_start_logic, hact, hne, hj', hrun] at hcan

/-- Every reachable manager state satisfies the exclusivity invariant. -/
theorem reach_inv (st : ManagerState) (h : Reach st) : MgrInv st := by
  induction h with
  | init jobs hjobs =>
    constructor
    · intro jt aid ha
      simp [activeOf, getA] at ha
    · intro jid j hj hrun
      exact absurd hrun (hjobs jid j hj)
  | createStep st jid jt total now hne hr ih =>
    obtain ⟨ih1, ih2⟩ := ih
    constructor
    · intro jt' aid ha
      exact ih1 jt' aid ha
    · intro jid' j' hj' hrun
      by_cases he : jid' = jid
      · subst he
        simp only [lookupJob, create_job] at hj'
        rw [getA_setA_self] at hj'
        injection hj' with hjj
        rw [← hjj] at hrun
        simp at hrun
      · simp only [lookupJob, create_job] at hj'
        rw [getA_setA_ne _ _ _ _ he] at hj'
        exact ih2 jid' j' hj' hrun
  | startStep st jid now hne hr ih =>
    obtain ⟨ih1, ih2⟩ := ih
    cases hlk : lookupJob st jid with
    | none =>
      rw [start_job_eq_none st jid now hlk]
      exact ⟨ih1, ih2⟩
    | some j =>
      by_cases hcan : (can_start_logic st j.job_type).1 = true
      · rw [start_job_eq_won st jid now j hlk hcan]
        constructor
        · intro jt' aid ha
          simp only [activeOf] at ha
          by_cases hj' : jt' = j.job_type
          · subst hj'
            rw [getA_setA_self] at ha
            injection ha with haa
            rw [← haa]
            exact hne
          · rw [getA_setA_ne _ _ _ _ hj'] at ha
            exact ih1 jt' aid ha
        · intro jid' j' hj'' hrun
          simp only [lookupJob] at hj''
          by_cases he : jid' = jid
          · subst he
            rw [getA_setA_self] at hj''
            injection hj'' with hjj
            subst hjj
            simp only [activeOf]
            exact getA_setA_self _ _ _
          · rw [getA_setA_ne _ _ _ _ he] at hj''
            have hj2 : lookupJob st jid' = some j' := hj''
            have hact := ih2 jid' j' hj2 hrun
            by_cases hty : j'.job_type = j.job_type
            · exact absurd hrun
                (can_start_true_no_running st j.job_type ⟨ih1, ih2⟩ hcan jid' j' hj2 hty)
            · simp only [activeOf]
              rw [getA_setA_ne _ _ _ _ hty]
              exact hact
      · rw [start_job_eq_lost st jid now j hlk hcan]
        exact ⟨ih1, ih2⟩
  | progressStep st jid p t hr ih =>
    obtain ⟨ih1, ih2⟩ := ih
    cases hlk : lookupJob st jid with
    | none =>
      rw [update_progress_eq_none st jid p t hlk]
      exact ⟨ih1, ih2⟩
    | some j =>
      rw [update_progress_eq_some st jid p t j hlk]
      constructor
      · intro jt' aid ha
        exact ih1 jt' aid ha
      · intro jid' j' hj' hrun
        simp only [lookupJob] at hj'
        by_cases he : jid' = jid
        · subst he
          rw [getA_setA_self] at hj'
          injection hj' with hjj
          subst hjj
          rw [update_progress_job_status] at hrun
          have hact := ih2 _ j hlk hrun
          simp only [activeOf]
          rw [update_progress_job_type]
          exact hact
        · rw [getA_setA_ne _ _ _ _ he] at hj'
          exact ih2 jid' j' hj' hrun
  | completeStep st jid r now hr ih =>
    obtain ⟨ih1, ih2⟩ := ih
    cases hlk : lookupJob st jid with
    | none =>
      rw [complete_job_eq_none st jid r now hlk]
      exact ⟨ih1, ih2⟩
    | some j =>
      rw [complete_job_eq_some st jid r now j hlk]
      constructor
      · intro jt' aid ha
        simp only [activeOf] at ha
        by_cases hcond : getA st.active j.job_type = some jid
        · rw [if_pos hcond] at ha
          by_cases hj' : jt' = j.job_type
          · subst hj'
            rw [getA_delA_self] at ha
            cases ha
          · rw [getA_delA_ne _ _ _ hj'] at ha
            exact ih1 jt' aid ha
        · rw [if_neg hcond] at ha
          exact ih1 jt' aid ha
      · intro jid' j' hj' hrun
        simp only [lookupJob] at hj'
        by_cases he : jid' = jid
        · subst he
          rw [getA_setA_self] at hj'
          injection hj' with hjj
          subst hjj
          simp [complete_job_job] at hrun
        · rw [getA_setA_ne _ _ _ _ he] at hj'
          have hact := ih2 jid' j' hj' hrun
          simp only [activeOf] at hact ⊢
          by_cases hcond : getA st.active j.job_type = some jid
          · by_cases hty : j'.job_type = j.job_type
            · rw [hty, hcond] at hact
              injection hact with haa
              exact absurd haa.symm he
            · rw [if_pos hcond, getA_delA_ne _ _ _ hty]
              exact hact
          · rw [if_neg hcond]
            exact hact
  | failStep st jid e now hr ih =>
    obtain ⟨ih1, ih2⟩ := ih
    cases hlk : lookupJob st jid with
    | none =>
      rw [fail_job_eq_none st jid e now hlk]
      exact ⟨ih1, ih2⟩
    | some j =>
      rw [fail_job_eq_some st jid e now j hlk]
      constructor
      · intro jt' aid ha
        simp only [activeOf] at ha
        by_cases hcond : getA st.active j.job_type = some jid
        · rw [if_pos hcond] at ha
          by_cases hj' : jt' = j.job_type
          · subst hj'
            rw [getA_delA_self] at ha
            cases ha
          · rw [getA_delA_ne _ _ _ hj'] at ha
            exact ih1 jt' aid ha
        · rw [if_neg hcond] at ha
          exact ih1 jt' aid ha
      · intro jid' j' hj' hrun
        simp only [lookupJob] at hj'
        by_cases he : jid' = jid
        · subst he
          rw [getA_setA_self] at hj'
          injection hj' with hjj
          subst hjj
          simp [fail_job_job] at hrun
        · rw [getA_setA_ne _ _ _ _ he] at hj'
          have hact := ih2 jid' j' hj' hrun
          simp only [activeOf] at hact ⊢
          by_cases hcond : getA st.active j.job_type = some jid
          · by_cases hty : j'.job_type = j.job_type
            · rw [hty, hcond] at hact
              injection hact with haa
              exact absurd haa.symm he
            · rw [if_pos hcond, getA_delA_ne _ _ _ hty]
              exact hact
          · rw [if_neg hcond]
            exact hact

/-- C6: in every reachable manager state, at most one job of each type has
status running; and while a transcribe job is running (held as the active
holder), submitting another transcription returns the conflict response
carrying the running job's identifier, creates no job record and spawns no
background task. -/
theorem C6_job_exclusivity (st : ManagerState) (files : List String) (jid2 : String)
    (now : Nat) (hreach : Reach st) :
    (∀ jt jida jidb ja jb, lookupJob st jida = some ja → lookupJob st jidb = some jb →
        ja.status = JobStatus.running → jb.status = JobStatus.running →
        ja.job_type = jt → jb.job_type = jt → jida = jidb)
    ∧ (∀ aid j, activeOf st JobType.transcribe = some aid → lookupJob st aid = some j →
        j.status = JobStatus.running →
        start_transcription st files jid2 now
          = (TranscribeResponse.conflict (some aid), st, false)) := by
  obtain ⟨h1, h2⟩ := reach_inv st hreach
  constructor
  · intro jt jida jidb ja jb hja hjb hra hrb hta htb
    have h1a := h2 jida ja hja hra
    have h1b := h2 jidb jb hjb hrb
    rw [hta] at h1a
    rw [htb] at h1b
    rw [h1a] at h1b
    exact Option.some.inj h1b
  · intro aid j hact hj hrun
    have hne := h1 JobType.transcribe aid hact
    have hcs : can_start_logic st JobType.transcribe = (false, some aid) := by
      simp [can_start_logic, hact, hne, hj, hrun]
    simp [start_transcription, can_start_job, hcs]

/-- C6: witness — from the empty manager, create and start a transcribe job
"a"; submitting a second transcription then returns the conflict carrying
"a", leaves the state unchanged and spawns nothing. -/
theorem C6_witness :
    start_transcription
      (start_job (create_job ⟨[], []⟩ "a" JobType.transcribe 1 0).1 "a" 1).1
      ["f.wav"] "b" 2
      = (TranscribeResponse.conflict (some "a"),
         (start_job (create_job ⟨[], []⟩ "a" JobType.transcribe 1 0).1 "a" 1).1,
         false) := by
  have hreach : Reach (start_job (create_job ⟨[], []⟩ "a" JobType.transcribe 1 0).1 "a" 1).1 :=
    Reach.startStep _ "a" 1 (by decide)
      (Reach.createStep ⟨[], []⟩ "a" JobType.transcribe 1 0 (by decide)
        (Reach.init [] (by intro jid j hj; simp [getA] at hj)))
  exact (C6_job_exclusivity _ ["f.wav"] "b" 2 hreach).2 "a"
    { job_id := "a", job_type := JobType.transcribe, status := JobStatus.running,
      progress := 0, total_items := 1, processed_items := 0, created_at := 0,
      started_at := some 1 }
    (by decide) (by decide) rfl

end ASRSpec
